import Mathlib

/-!
Verification of the command-normalization layer of the MongoDB Node.js driver
(`src/src/collection.ts`, driver version 3.6.2).  JavaScript values are shallowly
embedded as the inductive `BVal`; objects are ordered association lists, so key
order and key presence are observable, matching the driver where the compiled
find command is a plain object whose key order is meaningful.
-/

/-- A JavaScript/BSON-like runtime value.  Property access, `typeof`,
`Array.isArray` and `Buffer.isBuffer` tests from the source are modelled by the
helper functions below.  A driver `ObjectId` instance is represented as a
document carrying the field `_bsontype` with value `"ObjectID"`, exactly the
property the source inspects. -/
inductive BVal where
  | vNull
  | vUndefined
  | vBool (b : Bool)
  | vNum (n : Int)
  | vStr (s : String)
  | vDoc (fields : List (String × BVal))
  | vArr (elems : List BVal)
  | vBuf (bytes : List Nat)
  | vFunc (id : Nat)

/-- A JavaScript object: an ordered list of (key, value) entries. -/
abbrev Obj := List (String × BVal)

/-- Whether the object has the key (JS `in` / own-property presence). -/
def hasField (o : Obj) (k : String) : Bool :=
  o.any (fun p => p.1 == k)

/-- JS property read `o[k]`: the first entry with the key, else `undefined`. -/
def getField (o : Obj) (k : String) : BVal :=
  match o.find? (fun p => p.1 == k) with
  | some p => p.2
  | none => .vUndefined

/-- JS property write `o[k] = v`: replaces the entry in place when the key
exists, else appends it. -/
def setField (o : Obj) (k : String) (v : BVal) : Obj :=
  if hasField o k then o.map (fun p => if p.1 == k then (k, v) else p)
  else o ++ [(k, v)]

/-- JS property read on an arbitrary value: documents expose their fields, every
other value (including strings) yields `undefined` for the properties the
source reads. -/
def getProp (v : BVal) (k : String) : BVal :=
  match v with
  | .vDoc fs => getField fs k
  | _ => .vUndefined

/-- JS loose `x == null`: true exactly for `null` and `undefined`. -/
def isNullish : BVal → Bool
  | .vNull => true
  | .vUndefined => true
  | _ => false

/-- JS strict `x === null`. -/
def isNullVal : BVal → Bool
  | .vNull => true
  | _ => false

/-- JS truthiness (NaN is not modelled; numbers are integers). -/
def truthy : BVal → Bool
  | .vNull => false
  | .vUndefined => false
  | .vBool b => b
  | .vNum n => n != 0
  | .vStr s => s != ""
  | _ => true

/-- JS `typeof`. -/
def jsTypeof : BVal → String
  | .vNull => "object"
  | .vUndefined => "undefined"
  | .vBool _ => "boolean"
  | .vNum _ => "number"
  | .vStr _ => "string"
  | .vFunc _ => "function"
  | _ => "object"

/-- JS `Array.isArray`. -/
def isArray : BVal → Bool
  | .vArr _ => true
  | _ => false

/-- JS `Buffer.isBuffer`. -/
def isBuffer : BVal → Bool
  | .vBuf _ => true
  | _ => false

/-- Whether `typeof v === 'boolean'`. -/
def isBoolVal : BVal → Bool
  | .vBool _ => true
  | _ => false

/-- JS strict equality against a string literal (`v === s`): only a string with
the same characters compares equal. -/
def isStrLit (v : BVal) (s : String) : Bool :=
  match v with
  | .vStr t => t == s
  | _ => false

/-- JS strict equality against `true` (`v === true`). -/
def isTrue : BVal → Bool
  | .vBool true => true
  | _ => false

/-- JS coercion of a value used as a property key (`result[field]`).  The
claims only exercise string field names; primitives coerce to their printed
form and composite values are approximated by the object tag. -/
def jsToPropKey : BVal → String
  | .vStr s => s
  | .vNum n => toString n
  | .vBool b => toString b
  | .vNull => "null"
  | .vUndefined => "undefined"
  | _ => "[object Object]"

/-- The little-endian 32-bit size header of a raw buffer, as the source reads
it: `object[0] | (object[1] << 8) | (object[2] << 16) | (object[3] << 24)`,
with out-of-range reads contributing 0 (JS bitwise coercion of `undefined`). -/
def readSizeHeader (bytes : List Nat) : Nat :=
  bytes.getD 0 0 + 256 * bytes.getD 1 0 + 65536 * bytes.getD 2 0 +
    16777216 * bytes.getD 3 0

/-- JS ToInt32: the `|` chain in the source produces a signed 32-bit value, so
a header with the high bit set reads as a negative number. -/
def toInt32 (u : Nat) : Int :=
  if u % 2 ^ 32 < 2 ^ 31 then ((u % 2 ^ 32 : Nat) : Int)
  else ((u % 2 ^ 32 : Nat) : Int) - 2 ^ 32

/-- The per-collection state read by the methods under verification: the
namespace string, the owning database flags, and the fields of `this.s`
(`src/src/collection.ts`, constructor lines 128-194). -/
structure CollState where
  nsString : String
  dbSlaveOk : BVal
  collOptions : Obj
  raw : BVal
  collectionHint : BVal
  collReadPreference : BVal
  dbReadPreference : BVal
  collReadConcern : BVal
  promoteLongs : BVal
  promoteValues : BVal
  promoteBuffers : BVal

/-- Modelled from the spec: `ReadPreference.PRIMARY` lives in the
read-preference module, which is not under `src/`; it is the canonical
primary-only read-target constant, a mode string. -/
def readPreferencePRIMARY : BVal := .vStr "primary"

/-- Modelled from the spec: `ReadPreference.resolve` lives in the
read-preference module, which is not under `src/`.  Per spec section 4.3 step 5
the effective read preference is resolved from the call options, then the
collection, then the database, defaulting to a primary-mode preference. -/
def readPreferenceResolve (st : CollState) (opts : Obj) : BVal :=
  if !(isNullish (getField opts "readPreference")) then getField opts "readPreference"
  else if !(isNullish st.collReadPreference) then st.collReadPreference
  else if !(isNullish st.dbReadPreference) then st.dbReadPreference
  else .vDoc [("mode", .vStr "primary")]

/-- Modelled from the spec: `decorateCommand` lives in utils, which is not
under `src/`.  Per the canonical find-command shape of spec sections 3 and 6,
decoration attaches the optional canonical keys (`sort`, `hint`,
`noCursorTimeout`, `awaitData`) from the resolved options when they are
present with a non-null value, skipping the excluded names. -/
def decorateCommand (command : Obj) (opts : Obj) (exclude : List String) : Obj :=
  ["sort", "hint", "noCursorTimeout", "awaitData"].foldl
    (fun cmd k =>
      if !(exclude.contains k) && !(isNullish (getField opts k)) then
        setField cmd k (getField opts k)
      else cmd)
    command

/-- Modelled from the spec: `formattedOrderClause` lives in utils, which is not
under `src/`.  Per spec section 4.3 step 6 a sort given as a single field name
or a sequence of (field, direction) pairs is normalized into one canonical
ordered document; documents pass through. -/
def formattedOrderClause (v : BVal) : BVal :=
  match v with
  | .vStr s => .vDoc [(s, .vNum 1)]
  | .vArr elems =>
      .vDoc (elems.filterMap (fun e =>
        match e with
        | .vArr [.vStr k, d] => some (k, d)
        | .vStr k => some (k, .vNum 1)
        | _ => none))
  | x => x

/-- Modelled from the spec: `normalizeHintField` lives in utils, which is not
under `src/`.  Per spec section 4.3 step 3 a hint given as a name string or a
pair sequence is normalized into one canonical document shape; other hints
pass through unchanged. -/
def normalizeHintField (v : BVal) : BVal :=
  match v with
  | .vStr s => .vDoc [(s, .vNum 1)]
  | .vArr elems =>
      .vDoc (elems.filterMap (fun e =>
        match e with
        | .vStr k => some (k, .vNum 1)
        | _ => none))
  | x => x

/-- Modelled from the spec: `decorateWithReadConcern` lives in utils, which is
not under `src/`.  Per spec section 4.3 step 7 the read-concern document is
attached verbatim when present, the call options taking precedence over the
collection. -/
def decorateWithReadConcern (command : Obj) (st : CollState) (opts : Obj) : Obj :=
  let rc := if !(isNullish (getField opts "readConcern")) then getField opts "readConcern"
            else st.collReadConcern
  if isNullish rc then command else setField command "readConcern" rc

/-- Modelled from the spec: `decorateWithCollation` lives in utils, which is
not under `src/`.  Per spec section 4.3 step 7 the collation document is
attached verbatim when present; its content is not validated by this layer. -/
def decorateWithCollation (command : Obj) (opts : Obj) : Obj :=
  if isNullish (getField opts "collation") then command
  else setField command "collation" (getField opts "collation")

/-- Errors thrown synchronously by `Collection.prototype.find`
(`src/src/collection.ts`, lines 1480-1508 and 1559-1562). -/
inductive FindErr where
  | queryMustNotBeFunction
  | optionsMustNotBeFunction
  | bufferSizeMismatch (actualLength : Nat) (declaredSize : Int)
  | selectorNotObject
  deriving DecidableEq

/-- The `name` of the thrown error object. -/
def FindErr.errName : FindErr → String
  | .queryMustNotBeFunction => "TypeError"
  | .optionsMustNotBeFunction => "TypeError"
  | .bufferSizeMismatch _ _ => "MongoError"
  | .selectorNotObject => "MongoError"

/-- The message of the thrown error, byte for byte as the source builds it. -/
def FindErr.message : FindErr → String
  | .queryMustNotBeFunction => "`query` parameter must not be function"
  | .optionsMustNotBeFunction => "`options` parameter must not be function"
  | .bufferSizeMismatch len size =>
      "query selector raw message size does not match message header size [" ++
        toString len ++ "] != [" ++ toString size ++ "]"
  | .selectorNotObject => "query selector must be an object"

/-- The value `Collection.prototype.find` hands to the cursor: the compiled
find command and the resolved options (`src/src/collection.ts`, lines
1613-1617). -/
structure FindResult where
  findCommand : Obj
  newOptions : Obj

/-- The ObjectId wrapping of `Collection.prototype.find` (`src/src/collection.ts`,
lines 1511-1513): a bare ObjectId selector is wrapped as `{ _id: selector }`. -/
def wrappedSelector (selector0 : BVal) : BVal :=
  if !(isNullish selector0) && isStrLit (getProp selector0 "_bsontype") "ObjectID" then
    .vDoc [("_id", selector0)]
  else selector0

/-- The projection normalization of `Collection.prototype.find`
(`src/src/collection.ts`, lines 1517-1526): the `projection` option, falling
back to the legacy `fields` option (JS `||`), with an array of field names
rewritten into an inclusion document, an empty array into `{ _id: 1 }`. -/
def findProjection (options : Obj) : BVal :=
  let projection0 :=
    if truthy (getField options "projection") then getField options "projection"
    else getField options "fields"
  if truthy projection0 && !(isBuffer projection0) && isArray projection0 then
    match projection0 with
    | .vArr elems =>
        if elems.length != 0 then
          .vDoc (elems.foldl (fun r f => setField r (jsToPropKey f) (.vNum 1)) [])
        else .vDoc [("_id", .vNum 1)]
    | _ => projection0
  else projection0

/-- The option resolution of `Collection.prototype.find`
(`src/src/collection.ts`, lines 1529-1557): the shallow copy of the call
options, the ignoreUndefined cascade from the collection options, the
unpacking of skip, limit, raw, hint, timeout and slaveOk, the read-preference
resolution, and the slaveOk forcing. -/
def findResolvedOptions (st : CollState) (options : Obj) : Obj :=
  -- line 1529: shallow copy of the call options
  let newOptions : Obj := options
  -- lines 1532-1536: cascade the mergeKeys (only ignoreUndefined) from this.s.options
  let newOptions :=
    if hasField st.collOptions "ignoreUndefined" then
      setField newOptions "ignoreUndefined" (getField st.collOptions "ignoreUndefined")
    else newOptions
  -- lines 1539-1544
  let newOptions := setField newOptions "skip"
    (if truthy (getField options "skip") then getField options "skip" else .vNum 0)
  let newOptions := setField newOptions "limit"
    (if truthy (getField options "limit") then getField options "limit" else .vNum 0)
  let newOptions := setField newOptions "raw"
    (if isBoolVal (getField options "raw") then getField options "raw" else st.raw)
  let newOptions := setField newOptions "hint"
    (if !(isNullish (getField options "hint")) then normalizeHintField (getField options "hint")
     else st.collectionHint)
  let newOptions := setField newOptions "timeout" (getField options "timeout")
  -- line 1546: slaveOk from call options, else the db default
  let newOptions := setField newOptions "slaveOk"
    (if !(isNullish (getField options "slaveOk")) then getField options "slaveOk"
     else st.dbSlaveOk)
  -- line 1549
  let newOptions := setField newOptions "readPreference" (readPreferenceResolve st newOptions)
  -- lines 1552-1557: the source disjunction, embedded verbatim:
  -- (newOptions.readPreference !== 'primary' || newOptions.readPreference.mode !== 'primary')
  let rp := getField newOptions "readPreference"
  if !(isNullish rp) &&
      (!(isStrLit rp "primary") || !(isStrLit (getProp rp "mode") "primary")) then
    setField newOptions "slaveOk" (.vBool true)
  else newOptions

/-- The pure construction portion of `Collection.prototype.find`
(`src/src/collection.ts`, lines 1517-1619): projection normalization, option
resolution, and the build of the find command from the (already wrapped)
selector. -/
def findBuild (st : CollState) (selector : BVal) (options : Obj) : FindResult :=
  -- lines 1517-1526
  let projection := findProjection options
  -- lines 1529-1557
  let newOptions := findResolvedOptions st options
  -- lines 1565-1570
  let findCommand : Obj :=
    [("find", .vStr st.nsString), ("limit", getField newOptions "limit"),
     ("skip", getField newOptions "skip"), ("query", selector)]
  -- lines 1572-1574
  let findCommand :=
    if isBoolVal (getField options "allowDiskUse") then
      setField findCommand "allowDiskUse" (getField options "allowDiskUse")
    else findCommand
  -- lines 1577-1579
  let newOptions :=
    if isBoolVal (getField newOptions "awaitdata") then
      setField newOptions "awaitData" (getField newOptions "awaitdata")
    else newOptions
  -- line 1582
  let newOptions :=
    if isBoolVal (getField newOptions "timeout") then
      setField newOptions "noCursorTimeout" (getField newOptions "timeout")
    else newOptions
  -- line 1584
  let findCommand := decorateCommand findCommand newOptions ["session", "collation"]
  -- line 1586
  let findCommand :=
    if truthy projection then setField findCommand "fields" projection else findCommand
  -- line 1589 stores the db reference on the options; the reference itself
  -- is outside this model, only the presence of the key is kept
  let newOptions := setField newOptions "db" .vUndefined
  -- lines 1592-1599: collection-level serialization defaults
  let newOptions :=
    if isNullish (getField newOptions "raw") && isBoolVal st.raw then
      setField newOptions "raw" st.raw
    else newOptions
  let newOptions :=
    if isNullish (getField newOptions "promoteLongs") && isBoolVal st.promoteLongs then
      setField newOptions "promoteLongs" st.promoteLongs
    else newOptions
  let newOptions :=
    if isNullish (getField newOptions "promoteValues") && isBoolVal st.promoteValues then
      setField newOptions "promoteValues" st.promoteValues
    else newOptions
  let newOptions :=
    if isNullish (getField newOptions "promoteBuffers") && isBoolVal st.promoteBuffers then
      setField newOptions "promoteBuffers" st.promoteBuffers
    else newOptions
  -- lines 1602-1604
  let findCommand :=
    if truthy (getField findCommand "sort") then
      setField findCommand "sort" (formattedOrderClause (getField findCommand "sort"))
    else findCommand
  -- lines 1607-1611
  let findCommand := decorateWithReadConcern findCommand st options
  let findCommand := decorateWithCollation findCommand options
  { findCommand := findCommand, newOptions := newOptions }

/-- The tail of `Collection.prototype.find` after raw-buffer validation
(`src/src/collection.ts`, lines 1510-1619): ObjectId wrapping, then the
selector type check of lines 1560-1562, then the construction of the result.
In the source the option resolution of lines 1517-1557 runs before that check;
it is pure, so it is grouped into `findBuild` without observable difference. -/
def findAfterValidation (st : CollState) (selector0 : BVal) (options : Obj) :
    Except FindErr FindResult :=
  let selector := wrappedSelector selector0
  -- lines 1560-1562
  if !(isNullish selector) && jsTypeof selector != "object" then
    .error .selectorNotObject
  else .ok (findBuild st selector options)

/-- The selector normalization and raw-buffer validation of
`Collection.prototype.find` (`src/src/collection.ts`, lines 1490-1508): a
null, array-shaped, or non-object query is replaced by the empty document, and
a raw buffer selector must carry a matching little-endian size header. -/
def findValidated (st : CollState) (query : BVal) (options : Obj) :
    Except FindErr FindResult :=
  -- lines 1490-1491
  let selector :=
    if !(isNullVal query) && jsTypeof query == "object" && !(isArray query) then query
    else .vDoc []
  -- lines 1494-1508: raw-buffer size validation
  match selector with
  | .vBuf bytes =>
      let objectSize := toInt32 (readSizeHeader bytes)
      if objectSize != (bytes.length : Int) then
        .error (.bufferSizeMismatch bytes.length objectSize)
      else findAfterValidation st (.vBuf bytes) options
  | _ => findAfterValidation st selector options

/-- `Collection.prototype.find` (`src/src/collection.ts`, lines 1473-1621):
argument type checks, then selector normalization, raw-buffer validation, and
the pure compilation tail.  A non-object `optionsArg` other than a function
behaves as an absent options object, since every later read of a property on
it yields `undefined` (line 1515 only replaces a falsy options argument). -/
def collectionFind (st : CollState) (query : BVal) (optionsArg : BVal) :
    Except FindErr FindResult :=
  -- lines 1483-1488
  if jsTypeof query == "function" then .error .queryMustNotBeFunction
  else if jsTypeof optionsArg == "function" then .error .optionsMustNotBeFunction
  else
    findValidated st query
      (match optionsArg with
       | .vDoc fs => fs
       | _ => [])

/-- A collection state with every configurable field at its neutral default
and the namespace `db.coll`, used to instantiate concrete scenarios. -/
def sampleState : CollState :=
  { nsString := "db.coll"
    dbSlaveOk := .vBool false
    collOptions := []
    raw := .vUndefined
    collectionHint := .vNull
    collReadPreference := .vNull
    dbReadPreference := .vNull
    collReadConcern := .vNull
    promoteLongs := .vUndefined
    promoteValues := .vUndefined
    promoteBuffers := .vUndefined }

/-- The outcome of the option handling of one public method: the options
object handed to the constructed operation, and the state of the
caller-supplied options object after the call (`none` when the caller did not
supply an object).  A method that merges on a fresh copy leaves `callerAfter`
equal to the supplied object; a method that writes into the supplied object
reports the written object. -/
structure MethodCall where
  handed : Obj
  callerAfter : Option Obj

/-- `Collection.insertOne` option handling (`src/src/collection.ts`, lines
309-320): `options = options || {}`, then `ignoreUndefined` is cascaded onto a
fresh `Object.assign({}, options)` copy, so the caller object is never
written. -/
def insertOneOptions (st : CollState) (o : Option Obj) : MethodCall :=
  let options := o.getD []
  let handed :=
    if truthy (getField st.collOptions "ignoreUndefined") then
      setField options "ignoreUndefined" (getField st.collOptions "ignoreUndefined")
    else options
  { handed := handed, callerAfter := o }

/-- `Collection.insertMany` option handling (`src/src/collection.ts`, lines
343-352): a supplied object is shallow-copied, an absent one becomes
`{ ordered: true }`. -/
def insertManyOptions (o : Option Obj) : MethodCall :=
  match o with
  | some opts => { handed := opts, callerAfter := some opts }
  | none => { handed := [("ordered", .vBool true)], callerAfter := none }

/-- `Collection.updateOne` option handling (`src/src/collection.ts`, lines
477-497): `Object.assign({}, options)`, then `ignoreUndefined` cascaded onto a
further fresh copy; the caller object is never written. -/
def updateOneOptions (st : CollState) (o : Option Obj) : MethodCall :=
  let options := o.getD []
  let handed :=
    if truthy (getField st.collOptions "ignoreUndefined") then
      setField options "ignoreUndefined" (getField st.collOptions "ignoreUndefined")
    else options
  { handed := handed, callerAfter := o }

/-- `Collection.replaceOne` option handling (`src/src/collection.ts`, lines
520-540): same fresh-copy discipline as `updateOne`. -/
def replaceOneOptions (st : CollState) (o : Option Obj) : MethodCall :=
  updateOneOptions st o

/-- `Collection.updateMany` option handling (`src/src/collection.ts`, lines
564-585): same fresh-copy discipline as `updateOne`. -/
def updateManyOptions (st : CollState) (o : Option Obj) : MethodCall :=
  updateOneOptions st o

/-- `Collection.deleteOne` option handling (`src/src/collection.ts`, lines
622-637): same fresh-copy discipline as `updateOne`. -/
def deleteOneOptions (st : CollState) (o : Option Obj) : MethodCall :=
  updateOneOptions st o

/-- `Collection.deleteMany` option handling (`src/src/collection.ts`, lines
657-684): after the callback shuffling, the same fresh-copy discipline as
`updateOne` for a supplied options object. -/
def deleteManyOptions (st : CollState) (o : Option Obj) : MethodCall :=
  updateOneOptions st o

/-- `Collection.rename` option handling (`src/src/collection.ts`, lines
705-710): `Object.assign({}, options, { readPreference: ReadPreference.PRIMARY })`
builds a fresh object with the primary read target last, so it wins over any
caller-supplied preference and the caller object is untouched. -/
def renameOptions (o : Option Obj) : MethodCall :=
  { handed := setField (o.getD []) "readPreference" readPreferencePRIMARY
    callerAfter := o }

/-- `Collection.dropIndex` option handling (`src/src/collection.ts`, lines
882-895): `options = args.shift() || {}` keeps the caller object itself, and
line 888 then writes `options.readPreference = ReadPreference.PRIMARY` into
that same object. -/
def dropIndexOptions (o : Option Obj) : MethodCall :=
  let options := o.getD []
  let handed := setField options "readPreference" readPreferencePRIMARY
  { handed := handed, callerAfter := o.map (fun _ => handed) }

/-- `_findAndModify` option handling (`src/src/collection.ts`, lines
1998-2022, also the body of `findAndModify`): the options are cloned with
`Object.assign({}, options)` at line 2013 and the primary read preference is
forced on the clone at line 2015, so the caller object is untouched. -/
def findAndModifyOptions (o : Option Obj) : MethodCall :=
  let cloned := o.getD []
  { handed := setField cloned "readPreference" readPreferencePRIMARY
    callerAfter := o }

/-- `Collection.prototype.findAndRemove` option handling
(`src/src/collection.ts`, lines 2039-2060): `options = args.shift() || {}`
keeps the caller object, line 2052 writes `options.remove = true` into it, and
no read preference is set before delegating to `FindAndModifyOperation`. -/
def findAndRemoveOptions (o : Option Obj) : MethodCall :=
  let options := o.getD []
  let handed := setField options "remove" (.vBool true)
  { handed := handed, callerAfter := o.map (fun _ => handed) }

/-- `Collection.prototype.group` option handling (`src/src/collection.ts`,
lines 2079-2136): after the argument shuffling the options object is handed to
`GroupOperation`/`EvalGroupOperation` completely unchanged; no read preference
is forced. -/
def groupOptions (o : Option Obj) : MethodCall :=
  { handed := o.getD [], callerAfter := o }

/-- The hand-off value for insert-many.  Modelled from the spec:
`InsertManyOperation` (operations/insert_many) is not under `src/`; per spec
section 3 a descriptor carries the payload and the resolved EffectiveOptions,
and the `ordered` batching option of `insertMany` is documented to default to
true when the options carry no boolean `ordered`. -/
structure InsertManyDescriptor where
  docs : List BVal
  ordered : Bool
  restOptions : Obj

/-- The descriptor built from documents and an options object, resolving the
`ordered` option (see `InsertManyDescriptor`). -/
def insertManyDescriptor (docs : List BVal) (opts : Obj) : InsertManyDescriptor :=
  { docs := docs
    ordered :=
      match getField opts "ordered" with
      | .vBool b => b
      | _ => true
    restOptions := opts.filter (fun p => p.1 != "ordered") }

/-- `Collection.insertMany` (`src/src/collection.ts`, lines 343-352) as a
descriptor builder: a supplied options object is shallow-copied, an absent one
becomes `{ ordered: true }`. -/
def insertManyCall (docs : List BVal) (o : Option Obj) : InsertManyDescriptor :=
  insertManyDescriptor docs
    (match o with
     | some opts => opts
     | none => [("ordered", .vBool true)])

/-- Legacy `Collection.prototype.insert` (`src/src/collection.ts`, lines
1695-1711): `options = options || { ordered: false }`, a non-array document is
wrapped into a one-element array, `keepGoing === true` forces `ordered: false`,
and the call always delegates to `insertMany`. -/
def insertLegacyCall (docs : BVal) (o : Option Obj) : InsertManyDescriptor :=
  let options := o.getD [("ordered", .vBool false)]
  let docsList :=
    match docs with
    | .vArr ds => ds
    | d => [d]
  let options :=
    if isTrue (getField options "keepGoing") then setField options "ordered" (.vBool false)
    else options
  insertManyCall docsList (some options)

/-- Legacy `Collection.prototype.insert` option handling as a `MethodCall`
(`src/src/collection.ts`, lines 1701-1707): when the caller supplied an
options object it is kept by reference, and `keepGoing === true` writes
`ordered: false` into that same object. -/
def insertLegacyOptions (o : Option Obj) : MethodCall :=
  let options := o.getD [("ordered", .vBool false)]
  let handed :=
    if isTrue (getField options "keepGoing") then setField options "ordered" (.vBool false)
    else options
  { handed := handed
    callerAfter := o.map (fun orig =>
      if isTrue (getField orig "keepGoing") then setField orig "ordered" (.vBool false)
      else orig) }

/-- The error thrown by `Collection.bulkWrite` for a non-array operations
argument (`src/src/collection.ts`, lines 417-422). -/
inductive BulkWriteErr where
  | operationsMustBeArray
  deriving DecidableEq

/-- The message of the bulk-write error, as the source builds it. -/
def BulkWriteErr.message : BulkWriteErr → String
  | .operationsMustBeArray => "operations must be an array of documents"

/-- The hand-off value for bulk-write.  Modelled from the spec:
`BulkWriteOperation` (operations/bulk_write) is not under `src/`; per spec
section 3 a descriptor carries the operation sequence and its options. -/
structure BulkWriteDescriptor where
  operations : List BVal
  options : Obj

/-- `Collection.bulkWrite` (`src/src/collection.ts`, lines 413-429):
`options = options || { ordered: true }`, then the only shape check is
`Array.isArray(operations)`; any array, empty included, reaches the
descriptor. -/
def bulkWriteCall (operations : BVal) (o : Option Obj) :
    Except BulkWriteErr BulkWriteDescriptor :=
  let options := o.getD [("ordered", .vBool true)]
  match operations with
  | .vArr ops => .ok { operations := ops, options := options }
  | _ => .error .operationsMustBeArray

theorem hasField_cons (p : String × BVal) (rest : Obj) (k : String) :
    hasField (p :: rest) k = (p.1 == k || hasField rest k) := by
  simp [hasField]

theorem getField_cons (p : String × BVal) (rest : Obj) (k : String) :
    getField (p :: rest) k = if p.1 == k then p.2 else getField rest k := by
  by_cases h : p.1 == k <;> simp [getField, List.find?, h]

theorem getField_nil (k : String) : getField [] k = .vUndefined := rfl

theorem hasField_append (o p : Obj) (k : String) :
    hasField (o ++ p) k = (hasField o k || hasField p k) := by
  simp [hasField, List.any_append]

theorem getField_not_hasField (o : Obj) (k : String) (h : hasField o k = false) :
    getField o k = .vUndefined := by
  induction o with
  | nil => rfl
  | cons q rest ih =>
      rw [hasField_cons, Bool.or_eq_false_iff] at h
      rw [getField_cons, if_neg (by simp [h.1])]
      exact ih h.2

theorem getField_append (o p : Obj) (k : String) :
    getField (o ++ p) k = if hasField o k then getField o k else getField p k := by
  induction o with
  | nil => simp [hasField, getField_nil]
  | cons q rest ih =>
      rw [List.cons_append, getField_cons, getField_cons, hasField_cons]
      by_cases h : q.1 == k
      · simp [h]
      · simp only [h, if_neg, Bool.false_or, ih,
          show ((q.1 == k) = false) from by simp [h]]
        simp

theorem getField_map_set (o : Obj) (k : String) (v : BVal) :
    getField (o.map (fun p => if p.1 == k then (k, v) else p)) k
      = if hasField o k then v else .vUndefined := by
  induction o with
  | nil => simp [getField_nil, hasField]
  | cons q rest ih =>
      by_cases h : q.1 == k
      · simp only [List.map_cons, if_pos h, getField_cons, hasField_cons, h]
        simp
      · simp only [List.map_cons, if_neg h, getField_cons, hasField_cons,
          show ((q.1 == k) = false) from by simp_all]
        simp only [Bool.false_or, ih]
        simp [show ((q.1 == k) = false) from by simp_all]

theorem getField_setField_self (o : Obj) (k : String) (v : BVal) :
    getField (setField o k v) k = v := by
  by_cases h : hasField o k
  · rw [setField, if_pos h]
    rw [show (fun p => if p.1 == k then (k, v) else p)
          = (fun (p : String × BVal) => if p.1 == k then (k, v) else p) from rfl]
    rw [getField_map_set, if_pos h]
  · rw [setField, if_neg (by simp [h]), getField_append,
      if_neg (by simp_all), getField_cons]
    simp

theorem getField_map_set_ne (o : Obj) (k q : String) (v : BVal) (h : q ≠ k) :
    getField (o.map (fun p => if p.1 == k then (k, v) else p)) q = getField o q := by
  induction o with
  | nil => rfl
  | cons p rest ih =>
      by_cases hp : p.1 == k
      · simp only [List.map_cons, if_pos hp, getField_cons]
        rw [if_neg (by simp only [beq_iff_eq]; exact fun hh => h hh.symm),
          if_neg (by
            have hk : p.1 = k := by simpa using hp
            simp only [hk, beq_iff_eq]
            exact fun hh => h hh.symm), ih]
      · simp only [List.map_cons, if_neg hp, getField_cons]
        by_cases hq : p.1 == q
        · simp [hq]
        · rw [if_neg (by simp_all), if_neg (by simp_all), ih]

theorem getField_setField_ne (o : Obj) (k q : String) (v : BVal) (h : q ≠ k) :
    getField (setField o k v) q = getField o q := by
  by_cases hf : hasField o k
  · rw [setField, if_pos hf, getField_map_set_ne _ _ _ _ h]
  · rw [setField, if_neg (by simp [hf]), getField_append]
    by_cases hq : hasField o q
    · simp [hq]
    · rw [if_neg (by simp [hq]), getField_cons, if_neg (by simp [Ne.symm h]),
        getField_nil, getField_not_hasField o q (by simp [hq])]

theorem getField_bite_setField (c : Bool) (o : Obj) (k q : String)
    (v : BVal) (h : q ≠ k) :
    getField (if c then setField o k v else o) q = getField o q := by
  cases c
  · rfl
  · exact getField_setField_ne o k q v h

theorem getField_decorateCommand (c o : Obj) (ex : List String) (q : String)
    (h1 : q ≠ "sort") (h2 : q ≠ "hint") (h3 : q ≠ "noCursorTimeout")
    (h4 : q ≠ "awaitData") :
    getField (decorateCommand c o ex) q = getField c q := by
  simp only [decorateCommand, List.foldl]
  rw [getField_bite_setField _ _ _ _ _ h4, getField_bite_setField _ _ _ _ _ h3,
    getField_bite_setField _ _ _ _ _ h2, getField_bite_setField _ _ _ _ _ h1]

theorem getField_decorateWithReadConcern (c : Obj) (st : CollState) (o : Obj)
    (q : String) (h : q ≠ "readConcern") :
    getField (decorateWithReadConcern c st o) q = getField c q := by
  simp only [decorateWithReadConcern]
  generalize (if (!(isNullish (getField o "readConcern"))) = true
      then getField o "readConcern" else st.collReadConcern) = rc
  split
  · rfl
  · exact getField_setField_ne _ _ _ _ h

theorem getField_decorateWithCollation (c o : Obj) (q : String)
    (h : q ≠ "collation") :
    getField (decorateWithCollation c o) q = getField c q := by
  simp only [decorateWithCollation]
  split
  · rfl
  · exact getField_setField_ne _ _ _ _ h

theorem findBuild_query (st : CollState) (selector : BVal) (options : Obj) :
    getField (findBuild st selector options).findCommand "query" = selector := by
  simp only [findBuild]
  rw [getField_decorateWithCollation _ _ "query" (by decide),
    getField_decorateWithReadConcern _ _ _ "query" (by decide),
    getField_bite_setField _ _ "sort" "query" _ (by decide),
    getField_bite_setField _ _ "fields" "query" _ (by decide),
    getField_decorateCommand _ _ _ "query" (by decide) (by decide) (by decide) (by decide),
    getField_bite_setField _ _ "allowDiskUse" "query" _ (by decide)]
  rfl

theorem jsTypeof_wrappedSelector (sel0 : BVal) (h : jsTypeof sel0 = "object") :
    jsTypeof (wrappedSelector sel0) = "object" := by
  unfold wrappedSelector
  split
  · rfl
  · exact h

theorem findAfterValidation_ok (st : CollState) (sel0 : BVal) (options : Obj)
    (h : jsTypeof sel0 = "object") :
    findAfterValidation st sel0 options =
      .ok (findBuild st (wrappedSelector sel0) options) := by
  have hw := jsTypeof_wrappedSelector sel0 h
  simp [findAfterValidation, hw]

theorem readSizeHeader_lt (bytes : List Nat) (h : ∀ b ∈ bytes, b < 256) :
    readSizeHeader bytes < 2 ^ 32 := by
  have hb : ∀ i, bytes.getD i 0 < 256 := by
    intro i
    rw [List.getD_eq_getElem?_getD]
    cases hx : bytes[i]? with
    | none => simp
    | some x =>
        obtain ⟨hn, rfl⟩ := List.getElem?_eq_some_iff.mp hx
        simp only [Option.getD_some]
        exact h _ (List.getElem_mem hn)
  have h0 := hb 0
  have h1 := hb 1
  have h2 := hb 2
  have h3 := hb 3
  unfold readSizeHeader
  omega

theorem toInt32_eq_iff (u len : Nat) (hu : u < 2 ^ 32) (hlen : len < 2 ^ 31) :
    toInt32 u = (len : Int) ↔ u = len := by
  unfold toInt32
  rw [Nat.mod_eq_of_lt hu]
  split
  · exact Nat.cast_inj
  · constructor
    · intro hh
      omega
    · intro hh
      omega

theorem wrappedSelector_vBuf (bytes : List Nat) :
    wrappedSelector (.vBuf bytes) = .vBuf bytes := rfl

theorem collectionFind_vBuf (st : CollState) (bytes : List Nat) (opts : Obj) :
    collectionFind st (.vBuf bytes) (.vDoc opts) =
      (if toInt32 (readSizeHeader bytes) != (bytes.length : Int) then
        .error (.bufferSizeMismatch bytes.length (toInt32 (readSizeHeader bytes)))
      else findAfterValidation st (.vBuf bytes) opts) := rfl

theorem collectionFind_vDoc (st : CollState) (fs : List (String × BVal)) (opts : Obj) :
    collectionFind st (.vDoc fs) (.vDoc opts) = findAfterValidation st (.vDoc fs) opts := rfl

theorem collectionFind_vDoc_noOptions (st : CollState) (fs : List (String × BVal)) :
    collectionFind st (.vDoc fs) .vUndefined = findAfterValidation st (.vDoc fs) [] := rfl

theorem findAfterValidation_ne_selErr (st : CollState) (sel0 : BVal) (opts : Obj)
    (h : jsTypeof sel0 = "object") :
    findAfterValidation st sel0 opts ≠ .error .selectorNotObject := by
  rw [findAfterValidation_ok st sel0 opts h]
  simp

theorem findValidated_ne_selErr (st : CollState) (query : BVal) (opts : Obj) :
    findValidated st query opts ≠ .error .selectorNotObject := by
  cases query with
  | vBuf bytes =>
      have hb : findValidated st (.vBuf bytes) opts =
          (if toInt32 (readSizeHeader bytes) != (bytes.length : Int) then
            .error (.bufferSizeMismatch bytes.length (toInt32 (readSizeHeader bytes)))
          else findAfterValidation st (.vBuf bytes) opts) := rfl
      rw [hb]
      split
      · simp
      · exact findAfterValidation_ne_selErr st _ opts rfl
  | vDoc fs => exact findAfterValidation_ne_selErr st (.vDoc fs) opts rfl
  | vNull => exact findAfterValidation_ne_selErr st (.vDoc []) opts rfl
  | vUndefined => exact findAfterValidation_ne_selErr st (.vDoc []) opts rfl
  | vBool b => exact findAfterValidation_ne_selErr st (.vDoc []) opts rfl
  | vNum n => exact findAfterValidation_ne_selErr st (.vDoc []) opts rfl
  | vStr s => exact findAfterValidation_ne_selErr st (.vDoc []) opts rfl
  | vArr elems => exact findAfterValidation_ne_selErr st (.vDoc []) opts rfl
  | vFunc id => exact findAfterValidation_ne_selErr st (.vDoc []) opts rfl

theorem collectionFind_ne_selErr (st : CollState) (query optionsArg : BVal) :
    collectionFind st query optionsArg ≠ .error .selectorNotObject := by
  unfold collectionFind
  split
  · simp
  · split
    · simp
    · exact findValidated_ne_selErr st query _

theorem findValidated_nonobject (st : CollState) (query : BVal) (opts : Obj)
    (h : query = .vNull ∨ isArray query = true ∨ jsTypeof query ≠ "object") :
    findValidated st query opts = findValidated st (.vDoc []) opts := by
  cases query <;>
    first
      | rfl
      | (exfalso; rcases h with h | h | h <;> simp_all [isArray, jsTypeof])

theorem collectionFind_nonobject (st : CollState) (query optionsArg : BVal)
    (h : query = .vNull ∨ isArray query = true ∨
      (jsTypeof query ≠ "object" ∧ jsTypeof query ≠ "function")) :
    collectionFind st query optionsArg = collectionFind st (.vDoc []) optionsArg := by
  have hqf : (jsTypeof query == "function") = false := by
    rcases h with rfl | h | h
    · rfl
    · cases query <;> simp_all [isArray, jsTypeof]
    · exact beq_eq_false_iff_ne.mpr h.2
  have h2 : query = .vNull ∨ isArray query = true ∨ jsTypeof query ≠ "object" := by
    tauto
  unfold collectionFind
  rw [hqf, show jsTypeof (BVal.vDoc []) = "object" from rfl,
    show (("object" : String) == "function") = false from by decide]
  simp only [Bool.false_eq_true, if_false]
  split
  · rfl
  · exact findValidated_nonobject st query _ h2

/-- C6: in `Collection.prototype.find`, for every filter supplied as a raw
byte buffer: if the first four bytes, read as a little-endian 32-bit length
header, equal the total byte length, the buffer passes through unchanged as
the compiled selector; otherwise the call fails synchronously, before any
descriptor is built, with a MongoError whose message names both sizes. -/
theorem find_buffer_filter_validation (st : CollState) (bytes : List Nat) (opts : Obj)
    (hbytes : ∀ b ∈ bytes, b < 256) (_hlen4 : 4 ≤ bytes.length)
    (hlen : bytes.length < 2 ^ 31) :
    (readSizeHeader bytes = bytes.length →
      ∃ r, collectionFind st (.vBuf bytes) (.vDoc opts) = .ok r ∧
        getField r.findCommand "query" = .vBuf bytes) ∧
    (readSizeHeader bytes ≠ bytes.length →
      collectionFind st (.vBuf bytes) (.vDoc opts) =
        .error (.bufferSizeMismatch bytes.length (toInt32 (readSizeHeader bytes))) ∧
      (FindErr.bufferSizeMismatch bytes.length (toInt32 (readSizeHeader bytes))).message =
        "query selector raw message size does not match message header size [" ++
          toString bytes.length ++ "] != [" ++ toString (toInt32 (readSizeHeader bytes)) ++
          "]") := by
  have hiff := toInt32_eq_iff (readSizeHeader bytes) bytes.length
    (readSizeHeader_lt bytes hbytes) hlen
  rw [collectionFind_vBuf]
  constructor
  · intro hEq
    have hcast : toInt32 (readSizeHeader bytes) = (bytes.length : Int) := hiff.mpr hEq
    rw [if_neg (by simp [hcast])]
    rw [findAfterValidation_ok st (.vBuf bytes) opts rfl, wrappedSelector_vBuf]
    exact ⟨_, rfl, findBuild_query st (.vBuf bytes) opts⟩
  · intro hNe
    have hcast : toInt32 (readSizeHeader bytes) ≠ (bytes.length : Int) :=
      fun hh => hNe (hiff.mp hh)
    rw [if_pos (by simp [hcast])]
    exact ⟨rfl, rfl⟩

/-- Witness for C6 at the concrete buffer `[4, 0, 0, 0]`, whose header (4)
matches its length. -/
theorem find_buffer_filter_validation_witness :
    (collectionFind sampleState (.vBuf [4, 0, 0, 0]) (.vDoc [])).map
      (fun r => getField r.findCommand "query") = .ok (.vBuf [4, 0, 0, 0]) := by
  obtain ⟨r, hr, hq⟩ :=
    (find_buffer_filter_validation sampleState [4, 0, 0, 0] [] (by decide) (by decide)
      (by decide)).1 (by decide)
  rw [hr]
  simp [Except.map, hq]

/-- C10: the invalid-argument branch of `Collection.prototype.find` that
throws `query selector must be an object` is unreachable: no input makes the
call return that error, and a null, array, or non-object non-function query is
silently replaced by the empty filter, giving the same result as querying with
the empty document. -/
theorem find_selector_type_check_unreachable (st : CollState) (query optionsArg : BVal) :
    collectionFind st query optionsArg ≠ .error .selectorNotObject ∧
    (query = .vNull ∨ isArray query = true ∨
        (jsTypeof query ≠ "object" ∧ jsTypeof query ≠ "function") →
      collectionFind st query optionsArg = collectionFind st (.vDoc []) optionsArg) :=
  ⟨collectionFind_ne_selErr st query optionsArg,
   collectionFind_nonobject st query optionsArg⟩

/-- Witness for C10 at the numeric query `5` with no options. -/
theorem find_selector_type_check_unreachable_witness :
    collectionFind sampleState (.vNum 5) .vUndefined ≠ .error .selectorNotObject ∧
    collectionFind sampleState (.vNum 5) .vUndefined =
      collectionFind sampleState (.vDoc []) .vUndefined :=
  ⟨(find_selector_type_check_unreachable sampleState (.vNum 5) .vUndefined).1,
   (find_selector_type_check_unreachable sampleState (.vNum 5) .vUndefined).2
     (Or.inr (Or.inr ⟨by decide, by decide⟩))⟩

theorem findBuild_fields (st : CollState) (selector : BVal) (options : Obj)
    (hp : truthy (findProjection options) = true) :
    getField (findBuild st selector options).findCommand "fields" =
      findProjection options := by
  simp only [findBuild]
  rw [getField_decorateWithCollation _ _ "fields" (by decide),
    getField_decorateWithReadConcern _ _ _ "fields" (by decide),
    getField_bite_setField _ _ "sort" "fields" _ (by decide),
    if_pos hp, getField_setField_self]

theorem foldSet_names : ∀ (names : List String) (acc : Obj),
    names.Nodup → (∀ a ∈ names, hasField acc a = false) →
    (names.map BVal.vStr).foldl (fun r f => setField r (jsToPropKey f) (.vNum 1)) acc
      = acc ++ names.map (fun a => (a, BVal.vNum 1))
  | [], acc, _, _ => by simp
  | a :: rest, acc, hnodup, hacc => by
      simp only [List.map_cons, List.foldl_cons]
      have h1 : jsToPropKey (BVal.vStr a) = a := rfl
      rw [h1]
      have hsf : setField acc a (.vNum 1) = acc ++ [(a, BVal.vNum 1)] := by
        rw [setField, if_neg (by simp [hacc a (by simp)])]
      have hrest : ∀ b ∈ rest, hasField (acc ++ [(a, BVal.vNum 1)]) b = false := by
        intro b hb
        rw [hasField_append, Bool.or_eq_false_iff]
        refine ⟨hacc b (by simp [hb]), ?_⟩
        have hab : a ≠ b := fun hh => (List.nodup_cons.mp hnodup).1 (hh ▸ hb)
        simp [hasField, hab]
      rw [hsf, foldSet_names rest (acc ++ [(a, BVal.vNum 1)])
        (List.nodup_cons.mp hnodup).2 hrest]
      simp

theorem findProjection_projectionNames (names : List String) (hnodup : names.Nodup) :
    findProjection [("projection", .vArr (names.map .vStr))] =
      (if names = [] then .vDoc [("_id", BVal.vNum 1)]
       else .vDoc (names.map (fun a => (a, BVal.vNum 1)))) := by
  cases names with
  | nil => rfl
  | cons a rest =>
      rw [if_neg (by simp : ¬(a :: rest = []))]
      have hred : findProjection [("projection", .vArr ((a :: rest).map .vStr))] =
          .vDoc (((a :: rest).map BVal.vStr).foldl
            (fun r f => setField r (jsToPropKey f) (.vNum 1)) []) := rfl
      rw [hred, foldSet_names (a :: rest) [] hnodup (fun b _ => rfl)]
      simp

theorem findProjection_fieldsNames (names : List String) (hnodup : names.Nodup) :
    findProjection [("fields", .vArr (names.map .vStr))] =
      (if names = [] then .vDoc [("_id", BVal.vNum 1)]
       else .vDoc (names.map (fun a => (a, BVal.vNum 1)))) := by
  cases names with
  | nil => rfl
  | cons a rest =>
      rw [if_neg (by simp : ¬(a :: rest = []))]
      have hred : findProjection [("fields", .vArr ((a :: rest).map .vStr))] =
          .vDoc (((a :: rest).map BVal.vStr).foldl
            (fun r f => setField r (jsToPropKey f) (.vNum 1)) []) := rfl
      rw [hred, foldSet_names (a :: rest) [] hnodup (fun b _ => rfl)]
      simp


theorem getField_findResolvedOptions_nil (st : CollState) (q : String)
    (h1 : q ≠ "skip") (h2 : q ≠ "limit") (h3 : q ≠ "raw") (h4 : q ≠ "hint")
    (h5 : q ≠ "timeout") (h6 : q ≠ "slaveOk") (h7 : q ≠ "readPreference")
    (h8 : q ≠ "ignoreUndefined") :
    getField (findResolvedOptions st []) q = .vUndefined := by
  unfold findResolvedOptions
  rw [getField_bite_setField _ _ "slaveOk" q _ h6,
    getField_setField_ne _ "readPreference" q _ h7,
    getField_setField_ne _ "slaveOk" q _ h6,
    getField_setField_ne _ "timeout" q _ h5,
    getField_setField_ne _ "hint" q _ h4,
    getField_setField_ne _ "raw" q _ h3,
    getField_setField_ne _ "limit" q _ h2,
    getField_setField_ne _ "skip" q _ h1,
    getField_bite_setField _ _ "ignoreUndefined" q _ h8, getField_nil]

theorem getField_findResolvedOptions_nil_limit (st : CollState) :
    getField (findResolvedOptions st []) "limit" = BVal.vNum 0 := by
  unfold findResolvedOptions
  rw [getField_bite_setField _ _ "slaveOk" "limit" _ (by decide),
    getField_setField_ne _ "readPreference" "limit" _ (by decide),
    getField_setField_ne _ "slaveOk" "limit" _ (by decide),
    getField_setField_ne _ "timeout" "limit" _ (by decide),
    getField_setField_ne _ "hint" "limit" _ (by decide),
    getField_setField_ne _ "raw" "limit" _ (by decide),
    getField_setField_self]
  rfl

theorem getField_findResolvedOptions_nil_skip (st : CollState) :
    getField (findResolvedOptions st []) "skip" = BVal.vNum 0 := by
  unfold findResolvedOptions
  rw [getField_bite_setField _ _ "slaveOk" "skip" _ (by decide),
    getField_setField_ne _ "readPreference" "skip" _ (by decide),
    getField_setField_ne _ "slaveOk" "skip" _ (by decide),
    getField_setField_ne _ "timeout" "skip" _ (by decide),
    getField_setField_ne _ "hint" "skip" _ (by decide),
    getField_setField_ne _ "raw" "skip" _ (by decide),
    getField_setField_ne _ "limit" "skip" _ (by decide),
    getField_setField_self]
  rfl

theorem getField_findResolvedOptions_nil_hint (st : CollState) :
    getField (findResolvedOptions st []) "hint" = st.collectionHint := by
  unfold findResolvedOptions
  rw [getField_bite_setField _ _ "slaveOk" "hint" _ (by decide),
    getField_setField_ne _ "readPreference" "hint" _ (by decide),
    getField_setField_ne _ "slaveOk" "hint" _ (by decide),
    getField_setField_ne _ "timeout" "hint" _ (by decide),
    getField_setField_self]
  rfl

theorem getField_findResolvedOptions_nil_timeout (st : CollState) :
    getField (findResolvedOptions st []) "timeout" = .vUndefined := by
  unfold findResolvedOptions
  rw [getField_bite_setField _ _ "slaveOk" "timeout" _ (by decide),
    getField_setField_ne _ "readPreference" "timeout" _ (by decide),
    getField_setField_ne _ "slaveOk" "timeout" _ (by decide),
    getField_setField_self]
  rfl

theorem decorateCommand_nullish (c o : Obj) (ex : List String)
    (h1 : isNullish (getField o "sort") = true)
    (h2 : isNullish (getField o "hint") = true)
    (h3 : isNullish (getField o "noCursorTimeout") = true)
    (h4 : isNullish (getField o "awaitData") = true) :
    decorateCommand c o ex = c := by
  simp only [decorateCommand, List.foldl, h1, h2, h3, h4]
  simp

theorem decorateWithReadConcern_nullish (c : Obj) (st : CollState) (o : Obj)
    (h1 : isNullish (getField o "readConcern") = true)
    (h2 : isNullish st.collReadConcern = true) :
    decorateWithReadConcern c st o = c := by
  simp only [decorateWithReadConcern, h1, h2]
  simp [h2]

theorem decorateWithCollation_nullish (c o : Obj)
    (h : isNullish (getField o "collation") = true) :
    decorateWithCollation c o = c := by
  simp only [decorateWithCollation, h]
  simp

theorem findBuild_nil_command (st : CollState) (selector : BVal)
    (hhint : isNullish st.collectionHint = true)
    (hrc : isNullish st.collReadConcern = true) :
    (findBuild st selector []).findCommand =
      [("find", .vStr st.nsString), ("limit", BVal.vNum 0), ("skip", BVal.vNum 0),
       ("query", selector)] := by
  have hsort := getField_findResolvedOptions_nil st "sort" (by decide) (by decide)
    (by decide) (by decide) (by decide) (by decide) (by decide) (by decide)
  have hnct := getField_findResolvedOptions_nil st "noCursorTimeout" (by decide) (by decide)
    (by decide) (by decide) (by decide) (by decide) (by decide) (by decide)
  have hawD := getField_findResolvedOptions_nil st "awaitData" (by decide) (by decide)
    (by decide) (by decide) (by decide) (by decide) (by decide) (by decide)
  have hawd := getField_findResolvedOptions_nil st "awaitdata" (by decide) (by decide)
    (by decide) (by decide) (by decide) (by decide) (by decide) (by decide)
  have hlim := getField_findResolvedOptions_nil_limit st
  have hskip := getField_findResolvedOptions_nil_skip st
  have hhf := getField_findResolvedOptions_nil_hint st
  have htmo := getField_findResolvedOptions_nil_timeout st
  simp only [findBuild, hlim, hskip, hawd, htmo,
    show findProjection [] = BVal.vUndefined from rfl,
    show isBoolVal (getField ([] : Obj) "allowDiskUse") = false from rfl,
    show isBoolVal BVal.vUndefined = false from rfl,
    show truthy BVal.vUndefined = false from rfl,
    Bool.false_eq_true, if_false]
  have hhintNull : isNullish (getField (findResolvedOptions st []) "hint") = true := by
    rw [hhf]
    exact hhint
  have hsortNull : isNullish (getField (findResolvedOptions st []) "sort") = true := by
    rw [hsort]
    try rfl
  have hnctNull : isNullish (getField (findResolvedOptions st [])
      "noCursorTimeout") = true := by
    rw [hnct]
    try rfl
  have hawDNull : isNullish (getField (findResolvedOptions st []) "awaitData") = true := by
    rw [hawD]
    try rfl
  have hdec : ∀ C : Obj,
      decorateCommand C (findResolvedOptions st []) ["session", "collation"] = C :=
    fun C => decorateCommand_nullish C _ _ hsortNull hhintNull hnctNull hawDNull
  have hrcn : ∀ C : Obj, decorateWithReadConcern C st [] = C :=
    fun C => decorateWithReadConcern_nullish C st [] rfl hrc
  have hcol : ∀ C : Obj, decorateWithCollation C [] = C :=
    fun C => decorateWithCollation_nullish C [] rfl
  rw [hdec]
  have hbsort : getField [("find", BVal.vStr st.nsString), ("limit", BVal.vNum 0),
      ("skip", BVal.vNum 0), ("query", selector)] "sort" = .vUndefined := rfl
  rw [hbsort]
  simp only [show truthy BVal.vUndefined = false from rfl, Bool.false_eq_true, if_false]
  rw [hrcn, hcol]

theorem wrappedSelector_vDoc (fs : List (String × BVal))
    (hoid : isStrLit (getField fs "_bsontype") "ObjectID" = false) :
    wrappedSelector (.vDoc fs) = .vDoc fs := by
  unfold wrappedSelector
  rw [if_neg]
  simp [getProp, hoid]

/-- C9: in `Collection.prototype.find`, a projection supplied as an array of
field names, either under `projection` or under the legacy `fields` option, is
compiled to the inclusion document mapping every listed name to 1, an empty
array compiling to `{ _id: 1 }`, and the compiled document is attached to the
find command under the `fields` key. -/
theorem find_projection_array_normalization (st : CollState)
    (fs : List (String × BVal)) (names : List String)
    (hnodup : names.Nodup)
    (hoid : isStrLit (getField fs "_bsontype") "ObjectID" = false) :
    ((collectionFind st (.vDoc fs) (.vDoc [("projection", .vArr (names.map .vStr))])).map
        (fun r => getField r.findCommand "fields") =
      .ok (if names = [] then .vDoc [("_id", BVal.vNum 1)]
        else .vDoc (names.map (fun a => (a, BVal.vNum 1))))) ∧
    ((collectionFind st (.vDoc fs) (.vDoc [("fields", .vArr (names.map .vStr))])).map
        (fun r => getField r.findCommand "fields") =
      .ok (if names = [] then .vDoc [("_id", BVal.vNum 1)]
        else .vDoc (names.map (fun a => (a, BVal.vNum 1))))) := by
  have hw := wrappedSelector_vDoc fs hoid
  have hp1 := findProjection_projectionNames names hnodup
  have hp2 := findProjection_fieldsNames names hnodup
  constructor
  · rw [collectionFind_vDoc, findAfterValidation_ok st (.vDoc fs) _ rfl, hw]
    simp only [Except.map]
    rw [findBuild_fields st (.vDoc fs) _ (by rw [hp1]; split <;> rfl), hp1]
  · rw [collectionFind_vDoc, findAfterValidation_ok st (.vDoc fs) _ rfl, hw]
    simp only [Except.map]
    rw [findBuild_fields st (.vDoc fs) _ (by rw [hp2]; split <;> rfl), hp2]

/-- Witness for C9 at the name list `["a", "b"]` with the empty filter. -/
theorem find_projection_array_normalization_witness :
    (collectionFind sampleState (.vDoc [])
        (.vDoc [("projection", .vArr [.vStr "a", .vStr "b"])])).map
      (fun r => getField r.findCommand "fields") =
        .ok (.vDoc [("a", BVal.vNum 1), ("b", BVal.vNum 1)]) := by
  have h := (find_projection_array_normalization sampleState [] ["a", "b"]
    (by decide) (by decide)).1
  simpa using h



/-- C1 counterexample: `find({ _id: 5 })` with no options on the namespace
`db.coll` compiles to the command `{ find: "db.coll", limit: 0, skip: 0,
query: { _id: 5 } }`: the filter is held under the key `query` and the
compiled command has no `filter` key at all, refuting the claimed canonical
shape. -/
theorem find_command_filter_key_counterexample :
    (collectionFind sampleState (.vDoc [("_id", BVal.vNum 5)]) .vUndefined).map
        FindResult.findCommand =
      .ok [("find", .vStr "db.coll"), ("limit", BVal.vNum 0), ("skip", BVal.vNum 0),
        ("query", .vDoc [("_id", BVal.vNum 5)])] ∧
    (collectionFind sampleState (.vDoc [("_id", BVal.vNum 5)]) .vUndefined).map
        (fun r => getField r.findCommand "filter") = .ok .vUndefined :=
  ⟨rfl, rfl⟩

/-- C1 amended: for every document filter and every collection whose hint and
read concern are unset, `find` with no options compiles to a command with
exactly the keys `find`, `limit`, `skip`, `query` in that order, with `limit`
and `skip` defaulting to 0 and the filter under the `query` key. -/
theorem find_command_canonical_shape (st : CollState) (fs : List (String × BVal))
    (hoid : isStrLit (getField fs "_bsontype") "ObjectID" = false)
    (hhint : isNullish st.collectionHint = true)
    (hrc : isNullish st.collReadConcern = true) :
    (collectionFind st (.vDoc fs) .vUndefined).map FindResult.findCommand =
      .ok [("find", .vStr st.nsString), ("limit", BVal.vNum 0), ("skip", BVal.vNum 0),
        ("query", .vDoc fs)] := by
  rw [collectionFind_vDoc_noOptions, findAfterValidation_ok st (.vDoc fs) [] rfl,
    wrappedSelector_vDoc fs hoid]
  simp only [Except.map]
  rw [findBuild_nil_command st (.vDoc fs) hhint hrc]

/-- Witness for the amended C1 at the filter `{ _id: 5 }` on `db.coll`. -/
theorem find_command_canonical_shape_witness :
    (collectionFind sampleState (.vDoc [("_id", BVal.vNum 5)]) .vUndefined).map
        FindResult.findCommand =
      .ok [("find", .vStr "db.coll"), ("limit", BVal.vNum 0), ("skip", BVal.vNum 0),
        ("query", .vDoc [("_id", BVal.vNum 5)])] :=
  find_command_canonical_shape sampleState [("_id", BVal.vNum 5)] (by decide) (by decide)
    (by decide)

/-- C2 (code bug): the source comment at line 1551 says the slaveOk flag is
set only when the read preference differs from primary, but the disjunction at
lines 1552-1557 is true for every non-null resolved preference: on a
collection whose database has `slaveOk` false, a find whose options resolve
the read preference to the string `primary`, or to a mode object with mode
`primary`, still compiles with `slaveOk` forced to true. -/
theorem find_slaveok_forced_even_for_primary :
    ((collectionFind sampleState (.vDoc [])
          (.vDoc [("readPreference", .vStr "primary")])).map
        (fun r => getField r.newOptions "slaveOk") = .ok (.vBool true)) ∧
    ((collectionFind sampleState (.vDoc [])
          (.vDoc [("readPreference", .vDoc [("mode", .vStr "primary")])])).map
        (fun r => getField r.newOptions "slaveOk") = .ok (.vBool true)) ∧
    sampleState.dbSlaveOk = .vBool false :=
  ⟨rfl, rfl, rfl⟩

/-- C8: `rename` and `dropIndex` hand their operation an options object whose
read preference is primary, irrespective of any caller-supplied read
preference: `rename` merges `{ readPreference: PRIMARY }` last, and
`dropIndex` assigns the primary preference directly. -/
theorem rename_dropindex_force_primary (o : Option Obj) :
    getField (renameOptions o).handed "readPreference" = .vStr "primary" ∧
    getField (dropIndexOptions o).handed "readPreference" = .vStr "primary" :=
  ⟨getField_setField_self _ _ _, getField_setField_self _ _ _⟩

/-- C5 counterexample: `findAndRemove` called with an empty options object
hands `FindAndModifyOperation` the options `{ remove: true }` with no read
preference at all, and `group` hands a caller-supplied secondary read
preference through unchanged; neither forces primary before delegating. -/
theorem findandremove_group_no_primary_counterexample :
    getField (findAndRemoveOptions (some [])).handed "readPreference" = .vUndefined ∧
    getField (groupOptions (some [("readPreference", .vStr "secondary")])).handed
      "readPreference" = .vStr "secondary" :=
  ⟨rfl, rfl⟩

/-- C5 amended: of the three legacy entry points, only
`findAndModify` (via `_findAndModify`) forces a primary read preference before
delegating; `findAndRemove` only adds the remove flag to the caller options,
and `group` hands the options through completely unchanged. -/
theorem legacy_read_target_forcing (o : Option Obj) :
    getField (findAndModifyOptions o).handed "readPreference" = .vStr "primary" ∧
    (findAndRemoveOptions o).handed = setField (o.getD []) "remove" (.vBool true) ∧
    (groupOptions o).handed = o.getD [] :=
  ⟨getField_setField_self _ _ _, rfl, rfl⟩

/-- C3 counterexample: `dropIndex` on an empty caller options object leaves
the caller object holding `{ readPreference: "primary" }` after the call,
`findAndRemove` leaves it holding `{ remove: true }`, and legacy `insert` with
`{ keepGoing: true }` leaves it holding an added `ordered: false`; the
caller-supplied objects are mutated in place. -/
theorem caller_options_mutated_counterexample :
    (dropIndexOptions (some [])).callerAfter =
      some [("readPreference", .vStr "primary")] ∧
    (dropIndexOptions (some [])).callerAfter ≠ some ([] : Obj) ∧
    (findAndRemoveOptions (some [])).callerAfter = some [("remove", .vBool true)] ∧
    (insertLegacyOptions (some [("keepGoing", .vBool true)])).callerAfter =
      some [("keepGoing", .vBool true), ("ordered", .vBool false)] := by
  refine ⟨rfl, ?_, rfl, rfl⟩
  intro h
  exact List.cons_ne_nil _ _ (Option.some.inj h)

/-- C3 amended: the modern CRUD entry points and the copying legacy ones
(`insertOne`, `insertMany`, `updateOne`, `replaceOne`, `updateMany`,
`deleteOne`, `deleteMany`, `rename`, `findAndModify`, `group`) never mutate
the caller-supplied options object, merging on fresh copies; `dropIndex`
however writes the primary read preference into the caller object,
`findAndRemove` writes the remove flag into it, and legacy `insert` writes
`ordered: false` into it when `keepGoing` is true. -/
theorem option_resolution_mutation (st : CollState) (o : Obj) :
    (insertOneOptions st (some o)).callerAfter = some o ∧
    (insertManyOptions (some o)).callerAfter = some o ∧
    (updateOneOptions st (some o)).callerAfter = some o ∧
    (replaceOneOptions st (some o)).callerAfter = some o ∧
    (updateManyOptions st (some o)).callerAfter = some o ∧
    (deleteOneOptions st (some o)).callerAfter = some o ∧
    (deleteManyOptions st (some o)).callerAfter = some o ∧
    (renameOptions (some o)).callerAfter = some o ∧
    (findAndModifyOptions (some o)).callerAfter = some o ∧
    (groupOptions (some o)).callerAfter = some o ∧
    (dropIndexOptions (some o)).callerAfter =
      some (setField o "readPreference" (.vStr "primary")) ∧
    (findAndRemoveOptions (some o)).callerAfter =
      some (setField o "remove" (.vBool true)) ∧
    (insertLegacyOptions (some o)).callerAfter =
      some (if isTrue (getField o "keepGoing") then
        setField o "ordered" (.vBool false) else o) :=
  ⟨rfl, rfl, rfl, rfl, rfl, rfl, rfl, rfl, rfl, rfl, rfl, rfl, rfl⟩

/-- C4 counterexample: legacy `insert(doc)` with the options argument omitted
delegates with unordered batching even though no `keepGoing` flag was
supplied, while `insert(doc, {})` with an options object delegates ordered;
the unordered default is tied to the omitted options, not to `keepGoing`. -/
theorem insert_unordered_without_keepgoing_counterexample :
    (insertLegacyCall (.vDoc []) none).ordered = false ∧
    (insertLegacyCall (.vDoc []) (some [])).ordered = true :=
  ⟨rfl, rfl⟩

/-- C4 amended: `insert(doc, {})` and `insertMany([doc], { ordered: true })`
build equal insert-many descriptors (the document wrapped into a one-element
array and effective ordered batching); legacy `insert` delegates unordered
when its options argument is omitted entirely, and otherwise unordered
exactly when `keepGoing === true` or the caller explicitly passed a false
boolean `ordered`. -/
theorem insert_legacy_equivalence (d : BVal) (hd : isArray d = false) (opts : Obj) :
    insertLegacyCall d (some []) = insertManyCall [d] (some [("ordered", .vBool true)]) ∧
    (insertLegacyCall d none).ordered = false ∧
    ((insertLegacyCall d (some opts)).ordered =
      (if isTrue (getField opts "keepGoing") = true then false
       else match getField opts "ordered" with
         | .vBool b => b
         | _ => true)) := by
  refine ⟨?_, rfl, ?_⟩
  · cases d <;> first | rfl | exact absurd hd (by simp [isArray])
  · by_cases hkg : isTrue (getField opts "keepGoing") = true
    · simp only [insertLegacyCall, insertManyCall, insertManyDescriptor, hkg, if_true,
        Option.getD_some]
      rw [getField_setField_self]
    · simp only [Bool.not_eq_true] at hkg
      simp only [insertLegacyCall, insertManyCall, insertManyDescriptor,
        Option.getD_some, hkg, Bool.false_eq_true, if_false]

/-- Witness for the amended C4 at the document `{}`. -/
theorem insert_legacy_equivalence_witness :
    insertLegacyCall (.vDoc []) (some []) =
      insertManyCall [.vDoc []] (some [("ordered", .vBool true)]) ∧
    (insertLegacyCall (.vDoc []) none).ordered = false :=
  ⟨(insert_legacy_equivalence (.vDoc []) (by decide) []).1,
   (insert_legacy_equivalence (.vDoc []) (by decide) []).2.1⟩

/-- C7 counterexample: `bulkWrite` with an empty operations array does not
throw: the empty array passes the shape check and a descriptor with zero
operations is built. -/
theorem bulkwrite_empty_array_counterexample :
    bulkWriteCall (.vArr []) (some []) = .ok { operations := [], options := [] } :=
  rfl

/-- C7 amended: `bulkWrite` fails synchronously with the invalid-argument
error exactly when its operations argument is not an array: every non-array
value throws before a descriptor is built, and every array, the empty array
included, reaches the `BulkWriteOperation` descriptor. -/
theorem bulkwrite_shape_validation (ops : BVal) (o : Option Obj) :
    (isArray ops = false →
      bulkWriteCall ops o = .error .operationsMustBeArray ∧
      BulkWriteErr.operationsMustBeArray.message =
        "operations must be an array of documents") ∧
    (∀ elems, ops = .vArr elems →
      bulkWriteCall ops o = .ok ⟨elems, o.getD [("ordered", .vBool true)]⟩) := by
  constructor
  · intro h
    refine ⟨?_, rfl⟩
    cases ops <;> first | rfl | exact absurd h (by simp [isArray])
  · rintro elems rfl
    rfl

/-- Witness for the amended C7: a number is rejected, a one-element array
builds a descriptor. -/
theorem bulkwrite_shape_validation_witness :
    bulkWriteCall (.vNum 3) none = .error .operationsMustBeArray ∧
    bulkWriteCall (.vArr [.vDoc []]) none =
      .ok ⟨[.vDoc []], [("ordered", .vBool true)]⟩ :=
  ⟨((bulkwrite_shape_validation (.vNum 3) none).1 (by decide)).1,
   (bulkwrite_shape_validation (.vArr [.vDoc []]) none).2 [.vDoc []] rfl⟩

/-- Witness for C8 at an options object carrying a secondary read preference. -/
theorem rename_dropindex_force_primary_witness :
    getField (renameOptions (some [("readPreference", BVal.vStr "secondary")])).handed
      "readPreference" = .vStr "primary" ∧
    getField (dropIndexOptions (some [("readPreference", BVal.vStr "secondary")])).handed
      "readPreference" = .vStr "primary" :=
  rename_dropindex_force_primary (some [("readPreference", BVal.vStr "secondary")])

/-- Witness for the amended C5 at an empty options object. -/
theorem legacy_read_target_forcing_witness :
    getField (findAndModifyOptions (some [])).handed "readPreference" = .vStr "primary" ∧
    (findAndRemoveOptions (some [])).handed = setField [] "remove" (.vBool true) ∧
    (groupOptions (some [])).handed = [] :=
  legacy_read_target_forcing (some [])

/-- Witness for the amended C3 at an empty options object. -/
theorem option_resolution_mutation_witness :
    (insertOneOptions sampleState (some [])).callerAfter = some [] ∧
    (dropIndexOptions (some [])).callerAfter =
      some (setField [] "readPreference" (.vStr "primary")) :=
  ⟨(option_resolution_mutation sampleState []).1,
   (option_resolution_mutation sampleState []).2.2.2.2.2.2.2.2.2.2.1⟩
